import Mathlib

/-!
Shallow embedding of the wlrs wallpaper daemon core, written from the
repository sources:

* `src/daemon/src/renderer/manager.rs` — the label-keyed resource cache;
* `src/daemon/src/asset/animated.rs` — animated-texture decode timing and
  the frame-advance state machine;
* `src/daemon/src/renderer/wallpaper_layer.rs` — redraw/tick rate derivation;
* `src/common/src/wallpaper.rs` — wallpaper layers and z-ordering;
* `src/daemon/src/renderer/models/effect.rs` — shader-effect parameter
  buffer seeding;
* `src/daemon/src/utils.rs` — the set-current-wallpaper control handler.

GPU objects, sockets and the filesystem are abstracted: textures, samplers
and pipelines are represented by opaque type parameters or dropped when no
claim depends on them; filesystem probes become explicit parameters of the
functions that perform them.  Durations are modelled as natural numbers of
nanoseconds (Rust `std::time::Duration` stores whole nanoseconds), and f32
effect parameters are modelled as rationals, which is exact on every input
used here.
-/

/-! ### Resource cache (`src/daemon/src/renderer/manager.rs`)

`Manager<T>` wraps a `HashMap<String, Arc<T>>`.  The embedding stores the
entries as an association list (the hash map's bucket order never matters:
all access is by key) and models an `Arc<T>` handle by the stored value
itself, so "referentially identical handles" becomes equality of the
returned values, and `Arc::clone` is the identity.  A factory closure
becomes a function `Unit → T`; `getOrInit` additionally reports whether it
invoked the factory, making the one-time-creation side effect observable. -/

structure Manager (T : Type) where
  data : List (String × T)

/-- `Manager::get_or_init`: `self.data.entry(name.to_string()).or_insert_with(init).clone()`.
Returns the handle, the updated cache, and whether `init` was invoked. -/
def Manager.getOrInit {T : Type} (m : Manager T) (name : String) (init : Unit → T) :
    T × Manager T × Bool :=
  match m.data.lookup name with
  | some v => (v, m, false)
  | none =>
    let v := init ()
    (v, ⟨(name, v) :: m.data⟩, true)

/-- `Manager::get`. -/
def Manager.get {T : Type} (m : Manager T) (name : String) : Option T :=
  m.data.lookup name

/-- `Manager::contains`. -/
def Manager.containsLabel {T : Type} (m : Manager T) (name : String) : Bool :=
  (m.data.lookup name).isSome

/-! ### Animated texture (`src/daemon/src/asset/animated.rs`)

Frame textures, the shared sampler and the `last_update : Instant` field
carry no timing information and are dropped; a frame is represented by its
display duration in nanoseconds. -/

/-- Nanoseconds per millisecond; `Duration::from_millis` in the source. -/
def nsPerMs : Nat := 1000000

def msToNs (ms : Nat) : Nat := ms * nsPerMs

/-- The debug forced-advance threshold `Duration::from_millis(1000)` in
`AnimatedTexture::update`. -/
def forceThreshold : Nat := msToNs 1000

/-- State of `AnimatedTexture` (fields `frames`, `current_frame`,
`frame_count`, `looping`, `time_accumulator`).  `frames` keeps each frame's
`duration` in nanoseconds. -/
structure AnimatedTexture where
  frames : List Nat
  currentFrame : Nat
  frameCount : Nat
  looping : Bool
  timeAccumulator : Nat
  deriving DecidableEq, Repr

/-- `AnimatedTexture::update(dt)`.  Mirrors the source: below the
single-frame early return it adds `dt` to the accumulator, reads the
current frame's duration (indexing is always in bounds for states built by
the constructors, hence the default on `getD` is never consulted there),
computes the debug `force_advance` flag, advances at most one frame, applies
the non-looping end clamp, and returns whether the visible index changed.
The source's local bindings (`acc`, `old_frame`, `frame_duration`,
`force_advance`) are substituted into the expressions that use them. -/
def AnimatedTexture.update (s : AnimatedTexture) (dt : Nat) : AnimatedTexture × Bool :=
  if s.frameCount ≤ 1 then
    (s, false)
  else if s.frames.getD s.currentFrame 0 ≤ s.timeAccumulator + dt ∨
      forceThreshold ≤ s.timeAccumulator + dt then
    if s.looping = false ∧ (s.currentFrame + 1) % s.frameCount = 0 then
      ({ s with currentFrame := s.frameCount - 1, timeAccumulator := 0 },
        decide (s.currentFrame ≠ s.frameCount - 1))
    else
      ({ s with
          currentFrame := (s.currentFrame + 1) % s.frameCount
          timeAccumulator :=
            if forceThreshold ≤ s.timeAccumulator + dt then 0
            else s.timeAccumulator + dt - s.frames.getD s.currentFrame 0 },
        decide (s.currentFrame ≠ (s.currentFrame + 1) % s.frameCount))
  else
    ({ s with timeAccumulator := s.timeAccumulator + dt }, false)

/-- `AnimatedTexture::reset` (the `last_update` refresh is not modelled). -/
def AnimatedTexture.reset (s : AnimatedTexture) : AnimatedTexture :=
  { s with currentFrame := 0, timeAccumulator := 0 }

/-- Folding a finite sequence of `update` calls, discarding the
frame-changed flags. -/
def AnimatedTexture.runUpdates (s : AnimatedTexture) (dts : List Nat) : AnimatedTexture :=
  dts.foldl (fun t dt => (t.update dt).1) s

/-- The per-frame duration derivation in `AnimatedTexture::from_frames`,
in milliseconds, from the frame delay's numerator/denominator pair
(`frame.delay().numer_denom_ms()`, both `u32`).  The arithmetic is done in
`u64` in the source and cannot overflow, so plain `Nat` is exact. -/
def frameDelayDurationMs (numer denom : Nat) : Nat :=
  if numer = 0 ∨ denom = 0 then 100
  else if 10000 < numer * 1000 / denom then 500
  else numer * 1000 / denom

/-- `AnimatedTexture::from_frames` over the decoded frame delays (texture
upload omitted): every frame's duration is derived by
`frameDelayDurationMs`, the index starts at 0 and the accumulator at zero. -/
def AnimatedTexture.fromFrames (delays : List (Nat × Nat)) (looping : Bool) : AnimatedTexture :=
  { frames := delays.map fun p => msToNs (frameDelayDurationMs p.1 p.2)
    currentFrame := 0
    frameCount := delays.length
    looping := looping
    timeAccumulator := 0 }

/-! ### Rate derivation (`src/daemon/src/renderer/wallpaper_layer.rs`) -/

/-- `u32::MAX`, the "never automatically" sentinel. -/
def u32Max : Nat := 4294967295

/-- `WallpaperLayer::set_framerate`: the value stored into the
`frames_per_update : u32` field (`SYSTEM_FPS = 60`).  In the final branch
`0 < framerate < 60`, so `framerate as u32` is exact and `60 / framerate`
cannot overflow. -/
def setFramerate (framerate : Int) : Nat :=
  if framerate < 0 then 0
  else if framerate = 0 then u32Max
  else if 60 ≤ framerate then 1
  else 60 / framerate.toNat

/-- `WallpaperLayer::set_tickrate`: the value stored into
`ticks_per_update : u32` (`SYSTEM_TPS = 60`). -/
def setTickrate (tickrate : Int) : Nat :=
  if tickrate < 0 then 0
  else if tickrate = 0 then u32Max
  else if 60 ≤ tickrate then 1
  else 60 / tickrate.toNat

/-! ### Wallpaper layers and z-ordering (`src/common/src/wallpaper.rs`)

`toml::Value` parameter maps appear only on layers whose builders the
claims do not inspect, and are dropped.  `PathBuf` joins become string
concatenation with a separator, which is injective enough for every claim
here.  Opacities (`f32` in `0..=1`) are modelled as rationals. -/

inductive ShaderType where
  | wave
  | glitch
  | gaussian
  | custom (name : String)
  deriving DecidableEq, Repr

/-- `manifest::EffectType` as consumed by `Layer::from_effect`. -/
inductive EffectKind where
  | image
  | particles
  | shader (ty : ShaderType)
  deriving DecidableEq, Repr

/-- `manifest::Effect`: one `[[effects]]` manifest entry (the free-form
`params` map is dropped; no claim reads it through this path). -/
structure Effect where
  name : String
  effectType : EffectKind
  image : Option String
  script : Option String
  zIndex : Int
  opacity : Rat
  deriving DecidableEq, Repr

/-- `manifest::Background`. -/
inductive Background where
  | image (path : String)
  | color (color : String)
  | combined (image : String) (color : String)
  | none
  deriving DecidableEq, Repr

/-- The parsed wallpaper (`Wallpaper { manifest, path }`), flattened to the
manifest fields the core reads: background, effects, declared framerate and
tickrate, and the wallpaper directory path. -/
structure Wallpaper where
  name : String
  background : Background
  effects : List Effect
  framerate : Int
  tickrate : Int
  path : String
  deriving DecidableEq, Repr

/-- `Path::join` on the wallpaper directory. -/
def pathJoin (base rel : String) : String := base ++ "/" ++ rel

/-- `wallpaper::Layer`: a visual layer in rendering order. -/
inductive Layer where
  | background (imagePath : String) (color : Option String)
  | color (color : String)
  | image (name : String) (imagePath : String) (opacity : Rat) (zIndex : Int)
  | particle (name : String) (imagePath : String) (scriptPath : Option String)
      (opacity : Rat) (zIndex : Int)
  | shader (name : String) (shaderType : ShaderType) (imagePath : Option String)
      (opacity : Rat) (zIndex : Int)
  deriving DecidableEq, Repr

/-- `Layer::z_index`: the sort key (backgrounds pinned to −1000, plain
color backgrounds to −999, everything else carries its manifest z-index). -/
def Layer.zIndex : Layer → Int
  | .background _ _ => -1000
  | .color _ => -999
  | .image _ _ _ z => z
  | .particle _ _ _ _ z => z
  | .shader _ _ _ _ z => z

/-- `Layer::from_effect`. -/
def Layer.fromEffect (e : Effect) (basePath : String) : Layer :=
  match e.effectType with
  | .image => .image e.name (pathJoin basePath (e.image.getD "")) e.opacity e.zIndex
  | .particles =>
      .particle e.name (pathJoin basePath (e.image.getD ""))
        (e.script.map (pathJoin basePath)) e.opacity e.zIndex
  | .shader ty => .shader e.name ty (e.image.map (pathJoin basePath)) e.opacity e.zIndex

/-- Stable insertion step: the element being inserted came earlier in the
input than everything in the list, so it passes elements with a strictly
smaller key and stops in front of the first element whose key is not
smaller.  Together with `stableSortByZ` this embeds Rust's
`Vec::sort_by_key`, which is documented to be a stable ascending sort; a
stable sort is uniquely determined by its comparison, so any faithful
stable sort represents it. -/
def stableInsertByZ (x : Layer) : List Layer → List Layer
  | [] => [x]
  | y :: ys =>
    if y.zIndex < x.zIndex then y :: stableInsertByZ x ys
    else x :: y :: ys

/-- Stable ascending sort by `Layer.zIndex` (`layers.sort_by_key(|layer| layer.z_index())`). -/
def stableSortByZ : List Layer → List Layer
  | [] => []
  | x :: xs => stableInsertByZ x (stableSortByZ xs)

/-- The layer list `Wallpaper::get_layers` assembles before sorting:
background first (when present), then the effect layers in manifest order. -/
def Wallpaper.rawLayers (w : Wallpaper) : List Layer :=
  (match w.background with
    | .image img => [Layer.background (pathJoin w.path img) Option.none]
    | .color c => [Layer.color c]
    | .combined img c => [Layer.background (pathJoin w.path img) (some c)]
    | .none => []) ++
  w.effects.map (fun e => Layer.fromEffect e w.path)

/-- `Wallpaper::get_layers`: assemble, then stably sort by z-index. -/
def Wallpaper.getLayers (w : Wallpaper) : List Layer :=
  stableSortByZ w.rawLayers

/-! ### Shader-effect parameter seeding (`src/daemon/src/renderer/models/effect.rs`) -/

/-- `EffectModelBuilder::parse_f32_param`: look the name up in the layer's
parameter map, falling back to the given default when absent.  The map is
modelled as an association list of already-numeric values; the source's
extra invalid-type fallback also yields the default and is subsumed by
absence. -/
def parseF32Param (params : List (String × Rat)) (name : String) (default : Rat) : Rat :=
  match params.lookup name with
  | some v => v
  | Option.none => default

/-- The four-float initial contents of the per-instance parameter uniform
buffer written by `EffectModelBuilder::build` (`initial_data`), keyed by the
shader module's label. -/
def effectInitialData (shaderLabel : String) (params : List (String × Rat))
    (opacity : Rat) : List Rat :=
  if shaderLabel = "gaussian.effect.wgsl" then
    let radius := parseF32Param params "radius" (7 / 2)
    let effectStrength := opacity
    [radius * effectStrength, 0, effectStrength, 0]
  else if shaderLabel = "glitch.effect.wgsl" then
    let intensity := parseF32Param params "intensity" (1 / 2)
    let frequency := parseF32Param params "frequency" (3 / 10)
    let effectStrength := opacity
    [intensity * effectStrength, frequency, effectStrength, 0]
  else if shaderLabel = "wave.effect.wgsl" then
    let amplitude := parseF32Param params "amplitude" (1 / 5)
    let frequency := parseF32Param params "frequency" (1 / 2)
    let effectStrength := opacity
    [amplitude * effectStrength, frequency, effectStrength, 0]
  else
    [0, 0, opacity, 0]

/-- The label of `shaders::WAVE_EFFECT_SHADER`
(`src/daemon/src/shaders/mod.rs`): `include_wgsl!("./wave.effect.wgsl")`
stores the include path literal — leading `"./"` included — as the shader
module's label. -/
def waveEffectShaderLabel : String := "./wave.effect.wgsl"

/-- The label of `shaders::GLITCH_EFFECT_SHADER`
(`include_wgsl!("./glitch.effect.wgsl")`). -/
def glitchEffectShaderLabel : String := "./glitch.effect.wgsl"

/-- The label of `shaders::GAUSSIAN_EFFECT_SHADER`
(`include_wgsl!("./gaussian.effect.wgsl")`). -/
def gaussianEffectShaderLabel : String := "./gaussian.effect.wgsl"

/-- The shader module `Pipelines::from` selects for a shader-effect layer
(`src/daemon/src/renderer/pipeline.rs`, the `match shader_type` at the
`LayerType::Shader` arm), identified by its label; `ShaderType::Custom`
panics there and is modelled as no selected shader. -/
def effectShaderLabel : ShaderType → Option String
  | .wave => some waveEffectShaderLabel
  | .glitch => some glitchEffectShaderLabel
  | .gaussian => some gaussianEffectShaderLabel
  | .custom _ => Option.none

/-! ### Set-current-wallpaper handler (`src/daemon/src/utils.rs`)

The handler's two filesystem effects — `find_wallpaper_by_name` and
`Wallpaper::load` — become explicit parameters, and building a
`Pipelines` assembly from a wallpaper (`Pipelines::from` with the device,
queue and shared caches fixed) becomes an abstract function into an
arbitrary assembly type. -/

/-- `types::SetCurrentWallpaper` as read by the handler. -/
structure SetCurrentWallpaper where
  name : String
  monitor : Option String
  deriving DecidableEq, Repr

/-- `types::WallpaperSet`, the response payload. -/
structure WallpaperSet where
  name : String
  success : Bool
  error : Option String
  deriving DecidableEq, Repr

/-- The fields of `WallpaperLayer` the handler touches: the display name,
the current pipeline assembly, the two pacing divisors, and the damage
flag. -/
structure DisplayLayer (A : Type) where
  name : String
  wallpaper : A
  framesPerUpdate : Nat
  ticksPerUpdate : Nat
  damaged : Bool
  deriving DecidableEq, Repr

/-- The `Client` state the handler reads and writes: its display layers. -/
structure ClientState (A : Type) where
  wallpapers : List (DisplayLayer A)
  deriving DecidableEq, Repr

/-- The per-layer mutation in both branches of the handler: replace the
assembly, derive the pacing from the wallpaper's declared rates, mark
damaged. -/
def applyWallpaperTo {A : Type} (build : Wallpaper → A) (w : Wallpaper)
    (layer : DisplayLayer A) : DisplayLayer A :=
  { layer with
    wallpaper := build w
    framesPerUpdate := setFramerate w.framerate
    ticksPerUpdate := setTickrate w.tickrate
    damaged := true }

/-- The named-monitor branch mutates the first layer whose name matches and
then `break`s. -/
def setFirstMatching {A : Type} (monitorName : String)
    (f : DisplayLayer A → DisplayLayer A) :
    List (DisplayLayer A) → List (DisplayLayer A)
  | [] => []
  | l :: ls =>
    if l.name = monitorName then f l :: ls
    else l :: setFirstMatching monitorName f ls

/-- `handle_set_wallpaper`.  `findResult` is the outcome of
`find_wallpaper_by_name(&req.name)` (the found wallpaper's path);
`loadResult` is `Wallpaper::load` on that path; `build` is
`Pipelines::from` with the GPU handles and shared caches fixed.  Returns
the mutated client state and the `WallpaperSet` response. -/
def handleSetWallpaper {A : Type} (findResult : Option String)
    (loadResult : String → Except String Wallpaper) (build : Wallpaper → A)
    (req : SetCurrentWallpaper) (client : ClientState A) :
    ClientState A × WallpaperSet :=
  match findResult with
  | Option.none =>
    (client, ⟨req.name, false, some "Wallpaper not found"⟩)
  | some path =>
    match loadResult path with
    | .error e =>
      (client, ⟨req.name, false, some ("Failed to load wallpaper: " ++ e)⟩)
    | .ok wallpaper =>
      match req.monitor with
      | some monitorName =>
        if client.wallpapers.any (fun layer => layer.name = monitorName) then
          (⟨setFirstMatching monitorName (applyWallpaperTo build wallpaper)
              client.wallpapers⟩,
            ⟨req.name, true, Option.none⟩)
        else
          (client,
            ⟨req.name, false,
              some ("Monitor \x27" ++ monitorName ++ "\x27 not found")⟩)
      | Option.none =>
        (⟨client.wallpapers.map (applyWallpaperTo build wallpaper)⟩,
          ⟨req.name, true, Option.none⟩)

/-! ### The spec's timing algorithm, for comparison with `AnimatedTexture.update` -/

/-- Modelled from the claim's words (spec §4.4 steps 2–3): after adding
`dt` to the accumulator, "while the accumulator is greater than or equal to
the current frame's duration, subtract that duration and advance the index
to (index + 1) mod frame_count".  Returns the final accumulator and index.
The loop is guarded by `0 < duration` purely for termination: on a
zero-duration frame the quoted loop would never terminate, and no claim or
concrete input here has one. -/
def specWhileAdvance (frames : List Nat) (fc acc idx : Nat) : Nat × Nat :=
  if h : 0 < frames.getD idx 0 ∧ frames.getD idx 0 ≤ acc then
    specWhileAdvance frames fc (acc - frames.getD idx 0) ((idx + 1) % fc)
  else (acc, idx)
termination_by acc
decreasing_by
  exact Nat.sub_lt (Nat.lt_of_lt_of_le h.1 h.2) h.1

/-- Modelled from the amended claim for the update call: add `dt`; when the
grown accumulator reaches neither the current frame's duration nor the
1-second forced-advance threshold, only keep the grown accumulator;
otherwise advance the index exactly once (mod `frame_count`), zeroing the
accumulator on a forced advance and otherwise subtracting the one consumed
duration, then apply the non-looping end clamp; report whether the visible
index changed. -/
def updateAmendedSpec (s : AnimatedTexture) (dt : Nat) : AnimatedTexture × Bool :=
  if 1 < s.frameCount then
    let acc := s.timeAccumulator + dt
    let dur := s.frames.getD s.currentFrame 0
    if acc < dur ∧ acc < forceThreshold then
      ({ s with timeAccumulator := acc }, false)
    else
      let stepped := (s.currentFrame + 1) % s.frameCount
      let residual := if forceThreshold ≤ acc then 0 else acc - dur
      let pinned : Bool := !s.looping && stepped == 0
      let newIndex := if pinned then s.frameCount - 1 else stepped
      let newAcc := if pinned then 0 else residual
      ({ s with currentFrame := newIndex, timeAccumulator := newAcc },
        decide (s.currentFrame ≠ newIndex))
  else
    (s, false)

/-! ### Helper lemmas -/

theorem mem_stableInsertByZ (x a : Layer) (l : List Layer) :
    a ∈ stableInsertByZ x l ↔ a = x ∨ a ∈ l := by
  induction l with
  | nil => simp [stableInsertByZ]
  | cons y ys ih =>
    by_cases h : y.zIndex < x.zIndex
    · simp only [stableInsertByZ, if_pos h, List.mem_cons, ih]
      tauto
    · simp only [stableInsertByZ, if_neg h, List.mem_cons]

theorem pairwise_stableInsertByZ (x : Layer) (l : List Layer)
    (h : l.Pairwise (fun a b => a.zIndex ≤ b.zIndex)) :
    (stableInsertByZ x l).Pairwise (fun a b => a.zIndex ≤ b.zIndex) := by
  induction l with
  | nil => simp [stableInsertByZ]
  | cons y ys ih =>
    rcases List.pairwise_cons.1 h with ⟨hy, hys⟩
    by_cases hlt : y.zIndex < x.zIndex
    · rw [stableInsertByZ, if_pos hlt]
      refine List.pairwise_cons.2 ⟨?_, ih hys⟩
      intro a ha
      rcases (mem_stableInsertByZ x a ys).1 ha with rfl | ha
      · exact le_of_lt hlt
      · exact hy a ha
    · rw [stableInsertByZ, if_neg hlt]
      refine List.pairwise_cons.2 ⟨?_, h⟩
      intro a ha
      rcases List.mem_cons.1 ha with rfl | ha
      · exact le_of_not_lt hlt
      · exact le_trans (le_of_not_lt hlt) (hy a ha)

theorem pairwise_stableSortByZ (l : List Layer) :
    (stableSortByZ l).Pairwise (fun a b => a.zIndex ≤ b.zIndex) := by
  induction l with
  | nil => simp [stableSortByZ]
  | cons x xs ih => exact pairwise_stableInsertByZ x _ ih

theorem filter_stableInsertByZ (x : Layer) (l : List Layer) (k : Int) :
    (stableInsertByZ x l).filter (fun a => a.zIndex == k)
      = (x :: l).filter (fun a => a.zIndex == k) := by
  induction l with
  | nil => simp [stableInsertByZ]
  | cons y ys ih =>
    by_cases hlt : y.zIndex < x.zIndex
    · rw [stableInsertByZ, if_pos hlt]
      by_cases hy : y.zIndex = k
      · have hx : ¬ x.zIndex = k := by omega
        simp [List.filter_cons, hy, hx] at ih ⊢
        simpa [hx] using ih
      · simp [List.filter_cons, hy] at ih ⊢
        exact ih
    · rw [stableInsertByZ, if_neg hlt]

theorem filter_stableSortByZ (l : List Layer) (k : Int) :
    (stableSortByZ l).filter (fun a => a.zIndex == k)
      = l.filter (fun a => a.zIndex == k) := by
  induction l with
  | nil => rfl
  | cons x xs ih =>
    rw [stableSortByZ, filter_stableInsertByZ]
    by_cases hx : x.zIndex = k
    · simp [List.filter_cons, hx, ih]
    · simp [List.filter_cons, hx, ih]

theorem update_preserves_shape (s : AnimatedTexture) (dt : Nat) :
    (s.update dt).1.frames = s.frames ∧ (s.update dt).1.frameCount = s.frameCount ∧
      (s.update dt).1.looping = s.looping := by
  unfold AnimatedTexture.update
  by_cases h1 : s.frameCount ≤ 1
  · rw [if_pos h1]
    exact ⟨rfl, rfl, rfl⟩
  · rw [if_neg h1]
    by_cases h2 : s.frames.getD s.currentFrame 0 ≤ s.timeAccumulator + dt ∨
        forceThreshold ≤ s.timeAccumulator + dt
    · rw [if_pos h2]
      by_cases h3 : s.looping = false ∧ (s.currentFrame + 1) % s.frameCount = 0
      · rw [if_pos h3]
        exact ⟨rfl, rfl, rfl⟩
      · rw [if_neg h3]
        exact ⟨rfl, rfl, rfl⟩
    · rw [if_neg h2]
      exact ⟨rfl, rfl, rfl⟩

theorem update_index_bound (s : AnimatedTexture) (dt : Nat)
    (h : s.currentFrame < s.frameCount) :
    (s.update dt).1.currentFrame < s.frameCount := by
  have hpos : 0 < s.frameCount := by omega
  unfold AnimatedTexture.update
  by_cases h1 : s.frameCount ≤ 1
  · rw [if_pos h1]
    exact h
  · rw [if_neg h1]
    by_cases h2 : s.frames.getD s.currentFrame 0 ≤ s.timeAccumulator + dt ∨
        forceThreshold ≤ s.timeAccumulator + dt
    · rw [if_pos h2]
      by_cases h3 : s.looping = false ∧ (s.currentFrame + 1) % s.frameCount = 0
      · rw [if_pos h3]
        show s.frameCount - 1 < s.frameCount
        omega
      · rw [if_neg h3]
        exact Nat.mod_lt _ hpos
    · rw [if_neg h2]
      exact h

theorem runUpdates_induction (P : AnimatedTexture → Prop)
    (hstep : ∀ s dt, P s → P (s.update dt).1) :
    ∀ (dts : List Nat) (s : AnimatedTexture), P s → P (s.runUpdates dts) := by
  intro dts
  induction dts with
  | nil => intro s hs; exact hs
  | cons d ds ih =>
    intro s hs
    have hrw : AnimatedTexture.runUpdates s (d :: ds)
        = AnimatedTexture.runUpdates (s.update d).1 ds := rfl
    rw [hrw]
    exact ih _ (hstep s d hs)

theorem update_pinned_step (s : AnimatedTexture) (dt : Nat)
    (hl : s.looping = false) (hfc : 1 < s.frameCount)
    (hcur : s.currentFrame = s.frameCount - 1) :
    (s.update dt).1.currentFrame = s.frameCount - 1 ∧
      ((s.frames.getD s.currentFrame 0 ≤ s.timeAccumulator + dt ∨
          forceThreshold ≤ s.timeAccumulator + dt) →
        (s.update dt).1.timeAccumulator = 0) := by
  have hnext : (s.currentFrame + 1) % s.frameCount = 0 := by
    rw [hcur, Nat.sub_add_cancel (by omega)]
    exact Nat.mod_self _
  unfold AnimatedTexture.update
  rw [if_neg (by omega : ¬ s.frameCount ≤ 1)]
  by_cases hadv : s.frames.getD s.currentFrame 0 ≤ s.timeAccumulator + dt ∨
      forceThreshold ≤ s.timeAccumulator + dt
  · rw [if_pos hadv, if_pos ⟨hl, hnext⟩]
    exact ⟨rfl, fun _ => rfl⟩
  · rw [if_neg hadv]
    exact ⟨hcur, fun h => absurd h hadv⟩

/-! ### Claim theorems -/

/-- C1: for every label `L` and factory `f`, calling `get_or_init(L, f)`
twice with the same label invokes `f` exactly once — only on the first
call, when `L` is absent — and both calls return the same shared handle;
a second call with any factory `g` never invokes `g`, returns the handle
stored by the first call, and leaves the cache unchanged. -/
theorem getOrInit_invokes_factory_once {T : Type} (m : Manager T) (L : String)
    (f g : Unit → T) (habs : m.data.lookup L = Option.none) :
    (m.getOrInit L f).2.2 = true ∧
    (m.getOrInit L f).1 = f () ∧
    ((m.getOrInit L f).2.1.getOrInit L g).2.2 = false ∧
    ((m.getOrInit L f).2.1.getOrInit L g).1 = (m.getOrInit L f).1 ∧
    ((m.getOrInit L f).2.1.getOrInit L g).2.1 = (m.getOrInit L f).2.1 := by
  simp [Manager.getOrInit, habs, List.lookup]

/-- Witness for C1 at the empty cache with label `"texture"`. -/
theorem getOrInit_invokes_factory_once_witness :
    ((Manager.data (T := Nat) ⟨[]⟩).lookup "texture" = Option.none) ∧
    ((Manager.getOrInit (T := Nat) ⟨[]⟩ "texture" (fun _ => 7)).2.1.getOrInit "texture"
        (fun _ => 8)).1 = (Manager.getOrInit (T := Nat) ⟨[]⟩ "texture" (fun _ => 7)).1 :=
  ⟨rfl, (getOrInit_invokes_factory_once ⟨[]⟩ "texture" (fun _ => 7) (fun _ => 8) rfl).2.2.2.1⟩

/-- C5: against the assumed compositor-native rate of 60, `set_framerate`
stores `60 / d` when `0 < d < 60` (declared 30 gives 2), `1` when `d ≥ 60`
(declared 90 gives 1), `0` (compositor-driven) when `d` is negative, and
`u32::MAX` (never automatic) when `d = 0`; `set_tickrate` derives
`ticks_per_update` by the same rule. -/
theorem setFramerate_setTickrate_derivation (d : Int) :
    (d < 0 → setFramerate d = 0 ∧ setTickrate d = 0) ∧
    (d = 0 → setFramerate d = u32Max ∧ setTickrate d = u32Max) ∧
    (60 ≤ d → setFramerate d = 1 ∧ setTickrate d = 1) ∧
    (0 < d → d < 60 → setFramerate d = 60 / d.toNat ∧ setTickrate d = 60 / d.toNat) ∧
    setFramerate 30 = 2 ∧ setFramerate 90 = 1 ∧ setFramerate (-1) = 0 ∧
    setFramerate 0 = u32Max ∧ setTickrate 30 = 2 ∧ setTickrate 90 = 1 ∧
    setTickrate (-1) = 0 ∧ setTickrate 0 = u32Max := by
  refine ⟨fun h => ?_, fun h => ?_, fun h => ?_, fun h1 h2 => ?_,
    by decide, by decide, by decide, by decide, by decide, by decide, by decide, by decide⟩
  · simp [setFramerate, setTickrate, h]
  · simp [setFramerate, setTickrate, h]
  · have hn1 : ¬ d < 0 := by omega
    have hn2 : ¬ d = 0 := by omega
    unfold setFramerate setTickrate
    rw [if_neg hn1, if_neg hn2, if_pos h]
    exact ⟨rfl, rfl⟩
  · have hn1 : ¬ d < 0 := by omega
    have hn2 : ¬ d = 0 := by omega
    have hn3 : ¬ 60 ≤ d := by omega
    unfold setFramerate setTickrate
    rw [if_neg hn1, if_neg hn2, if_neg hn3]
    exact ⟨rfl, rfl⟩

/-- Witness for C5 at declared rate 15 (yields a divisor of 4). -/
theorem setFramerate_setTickrate_derivation_witness :
    setFramerate 15 = 60 / (15 : Int).toNat ∧ setTickrate 15 = 60 / (15 : Int).toNat :=
  (setFramerate_setTickrate_derivation 15).2.2.2.1 (by decide) (by decide)

/-- C8 counterexample: a perfectly ordinary encoded delay of 1 ms
(numerator 1, denominator 1) is derived as a 1000 ms duration — it is not
converted exactly to its millisecond value, and it exceeds the claimed
universal 500 ms bound. -/
theorem frameDelayDuration_counterexample :
    frameDelayDurationMs 1 1 = 1000 ∧ ¬ frameDelayDurationMs 1 1 ≤ 500 ∧
      frameDelayDurationMs 1 1 ≠ 1 := by
  decide

/-- C8 amended: a zero delay numerator or denominator yields the fixed
100 ms default; otherwise the code derives `v = numer * 1000 / denom`
milliseconds (1000 × the encoded delay `numer / denom` ms) and caps it to
500 ms only when `v` exceeds 10000, so a derived duration can be as large
as 10000 ms — the universal bound is 10 s, not 500 ms. -/
theorem frameDelayDuration_clamps (numer denom : Nat) :
    (numer = 0 ∨ denom = 0 → frameDelayDurationMs numer denom = 100) ∧
    (numer ≠ 0 → denom ≠ 0 → 10000 < numer * 1000 / denom →
      frameDelayDurationMs numer denom = 500) ∧
    (numer ≠ 0 → denom ≠ 0 → numer * 1000 / denom ≤ 10000 →
      frameDelayDurationMs numer denom = numer * 1000 / denom) ∧
    frameDelayDurationMs numer denom ≤ 10000 := by
  refine ⟨fun h => ?_, fun h1 h2 h3 => ?_, fun h1 h2 h3 => ?_, ?_⟩
  · simp [frameDelayDurationMs, h]
  · rw [frameDelayDurationMs, if_neg (by tauto), if_pos h3]
  · rw [frameDelayDurationMs, if_neg (by tauto), if_neg (by omega)]
  · unfold frameDelayDurationMs
    split
    · omega
    · split <;> omega

/-- Witness for C8 (amended) at the 1 ms delay `1/1`: the derived duration
is the uncapped computed value, 1000 ms. -/
theorem frameDelayDuration_clamps_witness :
    frameDelayDurationMs 1 1 = 1 * 1000 / 1 :=
  (frameDelayDuration_clamps 1 1).2.2.1 (by decide) (by decide) (by decide)

/-- C7 counterexample: a wave-shader layer with opacity 1/2, declared
amplitude 1/4 and declared frequency 1/2.  The shader module's real label
is `"./wave.effect.wgsl"` (the `include_wgsl!` path literal), the builder's
comparisons test the bare `"wave.effect.wgsl"`, so the wave branch never
runs and the buffer is `[0, 0, 1/2, 0]`: neither the opacity-scaled
amplitude 1/8 nor the opacity-scaled frequency 1/4 appears anywhere in
it. -/
theorem effectInitialData_counterexample :
    effectInitialData waveEffectShaderLabel
        [("amplitude", (1 : Rat)/4), ("frequency", (1 : Rat)/2)] ((1 : Rat)/2)
      = [0, 0, 1/2, 0] ∧
    ((1 : Rat)/4) * ((1 : Rat)/2) = 1/8 ∧
    ((1 : Rat)/2) * ((1 : Rat)/2) = 1/4 ∧
    ¬ ((1/8 : Rat) ∈ ([0, 0, 1/2, 0] : List Rat)) ∧
    ¬ ((1/4 : Rat) ∈ ([0, 0, 1/2, 0] : List Rat)) := by
  refine ⟨?_, by norm_num, by norm_num, by norm_num [List.mem_cons],
    by norm_num [List.mem_cons]⟩
  simp [effectInitialData, waveEffectShaderLabel]

/-- C7 amended: the labels of the selected shader modules carry the
include path's `"./"` prefix while `build` compares against bare file
names, so the kind-specific parameter branches are dead code: for every
shader-effect layer — wave, glitch or blur — and whatever parameters the
layer declares, the initial parameter uniform buffer is `[0, 0, opacity, 0]`;
only the layer's opacity is seeded (in the third slot), and no declared
parameter is written, scaled or otherwise. -/
theorem effectInitialData_opacity_scaling (params : List (String × Rat)) (op : Rat) :
    waveEffectShaderLabel ≠ "wave.effect.wgsl" ∧
    glitchEffectShaderLabel ≠ "glitch.effect.wgsl" ∧
    gaussianEffectShaderLabel ≠ "gaussian.effect.wgsl" ∧
    (∀ (t : ShaderType) (lbl : String), effectShaderLabel t = some lbl →
      effectInitialData lbl params op = [0, 0, op, 0]) := by
  refine ⟨by decide, by decide, by decide, ?_⟩
  intro t lbl hlbl
  cases t with
  | wave =>
    simp only [effectShaderLabel, Option.some.injEq] at hlbl
    subst hlbl
    simp [effectInitialData, waveEffectShaderLabel]
  | glitch =>
    simp only [effectShaderLabel, Option.some.injEq] at hlbl
    subst hlbl
    simp [effectInitialData, glitchEffectShaderLabel]
  | gaussian =>
    simp only [effectShaderLabel, Option.some.injEq] at hlbl
    subst hlbl
    simp [effectInitialData, gaussianEffectShaderLabel]
  | custom s =>
    simp [effectShaderLabel] at hlbl

/-- Witness for C7 (amended) at the wave shader with no declared
parameters and opacity 1. -/
theorem effectInitialData_opacity_scaling_witness :
    effectInitialData waveEffectShaderLabel [] 1 = [0, 0, 1, 0] :=
  (effectInitialData_opacity_scaling [] 1).2.2.2 ShaderType.wave waveEffectShaderLabel rfl

/-- Helper for C2: the source's `update` coincides with the amended
single-advance description on every state and every `dt`. -/
theorem update_eq_updateAmendedSpec (s : AnimatedTexture) (dt : Nat) :
    s.update dt = updateAmendedSpec s dt := by
  simp only [AnimatedTexture.update, updateAmendedSpec]
  by_cases h1 : s.frameCount ≤ 1
  · rw [if_pos h1, if_neg (by omega : ¬ 1 < s.frameCount)]
  · rw [if_neg h1, if_pos (by omega : 1 < s.frameCount)]
    by_cases h2 : s.frames.getD s.currentFrame 0 ≤ s.timeAccumulator + dt ∨
        forceThreshold ≤ s.timeAccumulator + dt
    · rw [if_pos h2,
        if_neg (by omega : ¬ (s.timeAccumulator + dt < s.frames.getD s.currentFrame 0 ∧
          s.timeAccumulator + dt < forceThreshold))]
      by_cases h3 : s.looping = false ∧ (s.currentFrame + 1) % s.frameCount = 0
      · have hb : (!s.looping && ((s.currentFrame + 1) % s.frameCount == 0)) = true := by
          simp [h3.1, h3.2]
        rw [if_pos h3, hb]
        simp
      · have hb : (!s.looping && ((s.currentFrame + 1) % s.frameCount == 0)) = false := by
          rcases Bool.eq_false_or_eq_true s.looping with hl | hl
          · simp [hl]
          · have hz : ¬ (s.currentFrame + 1) % s.frameCount = 0 := fun hz => h3 ⟨hl, hz⟩
            simp [hl, hz]
        rw [if_neg h3, hb]
        simp
    · rw [if_neg h2,
        if_pos (by omega : s.timeAccumulator + dt < s.frames.getD s.currentFrame 0 ∧
          s.timeAccumulator + dt < forceThreshold)]

/-- Helper for C2: the flag `update` returns is true exactly when the
visible frame index changed across the call. -/
theorem update_flag_iff_index_changed (s : AnimatedTexture) (dt : Nat) :
    (s.update dt).2 = true ↔ (s.update dt).1.currentFrame ≠ s.currentFrame := by
  simp only [AnimatedTexture.update]
  by_cases h1 : s.frameCount ≤ 1
  · rw [if_pos h1]
    simp
  · rw [if_neg h1]
    by_cases h2 : s.frames.getD s.currentFrame 0 ≤ s.timeAccumulator + dt ∨
        forceThreshold ≤ s.timeAccumulator + dt
    · rw [if_pos h2]
      by_cases h3 : s.looping = false ∧ (s.currentFrame + 1) % s.frameCount = 0
      · rw [if_pos h3]
        simp only [decide_eq_true_eq]
        exact ne_comm
      · rw [if_neg h3]
        simp only [decide_eq_true_eq]
        exact ne_comm
    · rw [if_neg h2]
      simp

/-- C2 counterexample: a looping three-frame animation with 10 ms frames,
zero accumulator and index 0, updated with `dt = 25 ms`.  The spec's while
loop consumes two whole 10 ms durations and lands on index 2 with 5 ms
left, but `update` consumes at most one duration per call and lands on
index 1 (with 15 ms accumulated), so `update` does not implement the
claimed algorithm. -/
theorem update_while_loop_counterexample :
    (AnimatedTexture.update ⟨[msToNs 10, msToNs 10, msToNs 10], 0, 3, true, 0⟩
        (msToNs 25)).1.currentFrame = 1 ∧
    (AnimatedTexture.update ⟨[msToNs 10, msToNs 10, msToNs 10], 0, 3, true, 0⟩
        (msToNs 25)).1.timeAccumulator = msToNs 15 ∧
    specWhileAdvance [msToNs 10, msToNs 10, msToNs 10] 3 (msToNs 25) 0 = (msToNs 5, 2) ∧
    (1 : Nat) ≠ 2 := by
  refine ⟨by decide, by decide, ?_, by decide⟩
  rw [specWhileAdvance]
  norm_num [msToNs, nsPerMs]
  rw [specWhileAdvance]
  norm_num
  rw [specWhileAdvance]
  norm_num

/-- C2 amended: for every animated texture and every `dt`, `update(dt)`
adds `dt` to the accumulator; if the grown accumulator reaches neither the
current frame's duration nor the 1-second forced-advance threshold it only
keeps the grown accumulator, and otherwise it advances the index exactly
once to `(index + 1) mod frame_count` — zeroing the accumulator on a forced
advance, otherwise subtracting the single consumed duration — and applies
the non-looping end clamp; at most one frame is consumed per call, residual
time being caught up on later calls; and it returns true exactly when the
visible frame index after the call differs from the index before it. -/
theorem update_single_advance_amended (s : AnimatedTexture) (dt : Nat) :
    s.update dt = updateAmendedSpec s dt ∧
      ((s.update dt).2 = true ↔ (s.update dt).1.currentFrame ≠ s.currentFrame) :=
  ⟨update_eq_updateAmendedSpec s dt, update_flag_iff_index_changed s dt⟩

/-- C4: for every animated texture whose frame list matches its frame count
and whose index is in bounds — as established by the constructors — the
current frame index stays within `[0, frame_count)` across every finite
sequence of `update(dt)` calls, looping or not, and remains a valid index
into the frame list; and `from_frames` starts with a valid index whenever
at least one frame was decoded. -/
theorem animated_index_stays_in_bounds (s : AnimatedTexture)
    (hlen : s.frames.length = s.frameCount) (hidx : s.currentFrame < s.frameCount) :
    (∀ dts : List Nat,
      (s.runUpdates dts).currentFrame < (s.runUpdates dts).frameCount ∧
      (s.runUpdates dts).currentFrame < (s.runUpdates dts).frames.length ∧
      (s.runUpdates dts).frameCount = s.frameCount) ∧
    (∀ (delays : List (Nat × Nat)) (looping : Bool), delays ≠ [] →
      (AnimatedTexture.fromFrames delays looping).currentFrame <
        (AnimatedTexture.fromFrames delays looping).frameCount ∧
      (AnimatedTexture.fromFrames delays looping).frames.length =
        (AnimatedTexture.fromFrames delays looping).frameCount) := by
  constructor
  · intro dts
    have key := runUpdates_induction
      (fun t => t.currentFrame < t.frameCount ∧ t.frames.length = t.frameCount ∧
        t.frameCount = s.frameCount)
      (fun t dt ht => by
        obtain ⟨h1, h2, h3⟩ := ht
        obtain ⟨hf, hc, _⟩ := update_preserves_shape t dt
        refine ⟨?_, ?_, ?_⟩
        · rw [hc]
          exact update_index_bound t dt h1
        · rw [hf, hc]
          exact h2
        · rw [hc]
          exact h3)
      dts s ⟨hidx, hlen, rfl⟩
    obtain ⟨k1, k2, k3⟩ := key
    refine ⟨k1, ?_, k3⟩
    rw [k2]
    exact k1
  · intro delays looping hne
    constructor
    · show 0 < delays.length
      cases delays with
      | nil => exact absurd rfl hne
      | cons d ds => simp
    · simp [AnimatedTexture.fromFrames]

/-- Witness for C4 at a two-frame looping texture advanced once. -/
theorem animated_index_stays_in_bounds_witness :
    ((AnimatedTexture.fromFrames [(100, 1), (100, 1)] true).runUpdates
        [msToNs 150]).currentFrame <
      ((AnimatedTexture.fromFrames [(100, 1), (100, 1)] true).runUpdates
        [msToNs 150]).frameCount :=
  (((animated_index_stays_in_bounds (AnimatedTexture.fromFrames [(100, 1), (100, 1)] true)
    rfl (by decide)).1 [msToNs 150])).1

/-- C3: for a non-looping animated texture with more than one frame sitting
on its last frame — the state the end clamp produces when the animation
advances past the end — every further sequence of `update(dt)` calls leaves
the index pinned at `frame_count − 1` and never returns it to 0; whenever
such an update's advance condition fires, the accumulator is reset to zero
together with the pin; and only an explicit `reset()` returns the index
to 0. -/
theorem nonlooping_pins_last_frame (s : AnimatedTexture)
    (hl : s.looping = false) (hfc : 1 < s.frameCount)
    (hcur : s.currentFrame = s.frameCount - 1) :
    (∀ dts : List Nat, (s.runUpdates dts).currentFrame = s.frameCount - 1 ∧
        (s.runUpdates dts).currentFrame ≠ 0) ∧
    (∀ dt : Nat,
      (s.frames.getD s.currentFrame 0 ≤ s.timeAccumulator + dt ∨
          forceThreshold ≤ s.timeAccumulator + dt) →
        (s.update dt).1.currentFrame = s.frameCount - 1 ∧
          (s.update dt).1.timeAccumulator = 0) ∧
    s.reset.currentFrame = 0 := by
  refine ⟨?_, ?_, rfl⟩
  · intro dts
    have key := runUpdates_induction
      (fun t => t.looping = false ∧ t.frameCount = s.frameCount ∧
        t.currentFrame = t.frameCount - 1)
      (fun t dt ht => by
        obtain ⟨a, b, c⟩ := ht
        obtain ⟨_, hc, hlp⟩ := update_preserves_shape t dt
        have pinned := update_pinned_step t dt a (by rw [b]; exact hfc) c
        refine ⟨?_, ?_, ?_⟩
        · rw [hlp]
          exact a
        · rw [hc]
          exact b
        · rw [hc]
          exact pinned.1)
      dts s ⟨hl, rfl, by rw [hcur]⟩
    obtain ⟨_, kb, kc⟩ := key
    rw [kb] at kc
    exact ⟨kc, by omega⟩
  · intro dt h
    have pinned := update_pinned_step s dt hl hfc hcur
    exact ⟨pinned.1, pinned.2 h⟩

/-- Witness for C3 at a pinned two-frame non-looping texture. -/
theorem nonlooping_pins_last_frame_witness :
    ((⟨[msToNs 100, msToNs 100], 1, 2, false, 0⟩ : AnimatedTexture).runUpdates
        [msToNs 500, msToNs 2000]).currentFrame = 2 - 1 ∧
    ((⟨[msToNs 100, msToNs 100], 1, 2, false, 0⟩ : AnimatedTexture).runUpdates
        [msToNs 500, msToNs 2000]).currentFrame ≠ 0 :=
  (nonlooping_pins_last_frame ⟨[msToNs 100, msToNs 100], 1, 2, false, 0⟩
    rfl (by decide) rfl).1 [msToNs 500, msToNs 2000]

/-- C6: for every wallpaper, `get_layers` returns the assembled layer list
stably sorted by ascending z-index: the output is ascending in `z_index`,
and for every z value the layers carrying it appear in exactly the order
the pre-sort assembly produced them from the manifest; in particular four
effect layers A, B, C, D with z-indices 10, −1000, 5, −1000 come out as
B, D (the two −1000 entries in their original relative order), then C,
then A. -/
theorem getLayers_stably_sorted (w : Wallpaper) :
    w.getLayers.Pairwise (fun a b => a.zIndex ≤ b.zIndex) ∧
    (∀ k : Int, w.getLayers.filter (fun l => l.zIndex == k)
      = w.rawLayers.filter (fun l => l.zIndex == k)) ∧
    Wallpaper.getLayers
        ⟨"example", Background.none,
          [⟨"A", EffectKind.image, some "a.png", Option.none, 10, 1⟩,
           ⟨"B", EffectKind.image, some "b.png", Option.none, -1000, 1⟩,
           ⟨"C", EffectKind.image, some "c.png", Option.none, 5, 1⟩,
           ⟨"D", EffectKind.image, some "d.png", Option.none, -1000, 1⟩],
          30, -1, "/w"⟩
      = [Layer.image "B" "/w/b.png" 1 (-1000),
         Layer.image "D" "/w/d.png" 1 (-1000),
         Layer.image "C" "/w/c.png" 1 5,
         Layer.image "A" "/w/a.png" 1 10] := by
  exact ⟨pairwise_stableSortByZ _, fun k => filter_stableSortByZ _ k, by decide⟩

/-- C9: when a set-current-wallpaper request names a monitor `m`, the
requested wallpaper is found and loads, but no active display layer is
named `m`, the handler returns `success = false` with an error string that
names `m`, and the client state — every layer's pipeline assembly, pacing
divisors and damage flag — is returned unchanged. -/
theorem handleSetWallpaper_missing_monitor {A : Type} (path : String)
    (loadResult : String → Except String Wallpaper) (build : Wallpaper → A)
    (req : SetCurrentWallpaper) (client : ClientState A) (m : String) (w : Wallpaper)
    (hmon : req.monitor = some m) (hload : loadResult path = .ok w)
    (habs : ∀ layer ∈ client.wallpapers, layer.name ≠ m) :
    handleSetWallpaper (some path) loadResult build req client =
      (client, ⟨req.name, false, some ("Monitor \x27" ++ m ++ "\x27 not found")⟩) ∧
    (∃ pre post,
      (handleSetWallpaper (some path) loadResult build req client).2.error
        = some (pre ++ m ++ post)) := by
  have hany : client.wallpapers.any (fun layer => layer.name = m) = false := by
    rw [List.any_eq_false]
    intro layer hmem
    simpa using habs layer hmem
  have hmain : handleSetWallpaper (some path) loadResult build req client =
      (client, ⟨req.name, false, some ("Monitor \x27" ++ m ++ "\x27 not found")⟩) := by
    simp [handleSetWallpaper, hload, hmon, hany]
  refine ⟨hmain, "Monitor \x27", "\x27 not found", ?_⟩
  rw [hmain]

/-- Witness for C9: one active display named `"eDP-1"`, request for
monitor `"DP-1"`. -/
theorem handleSetWallpaper_missing_monitor_witness :
    handleSetWallpaper (A := Nat) (some "/wp/sunset")
        (fun _ => .ok ⟨"sunset", Background.none, [], 30, -1, "/wp/sunset"⟩)
        (fun _ => 0) ⟨"sunset", some "DP-1"⟩ ⟨[⟨"eDP-1", 0, 1, 1, false⟩]⟩ =
      (⟨[⟨"eDP-1", 0, 1, 1, false⟩]⟩,
        ⟨"sunset", false, some ("Monitor \x27" ++ "DP-1" ++ "\x27 not found")⟩) :=
  (handleSetWallpaper_missing_monitor "/wp/sunset"
    (fun _ => .ok ⟨"sunset", Background.none, [], 30, -1, "/wp/sunset"⟩)
    (fun _ => 0) ⟨"sunset", some "DP-1"⟩ ⟨[⟨"eDP-1", 0, 1, 1, false⟩]⟩ "DP-1"
    ⟨"sunset", Background.none, [], 30, -1, "/wp/sunset"⟩ rfl rfl (by decide)).1

/-- C10: when the request names no monitor and the wallpaper is found and
loads, the handler replaces every active display layer's assembly with one
built from the loaded wallpaper, derives each layer's pacing from the
wallpaper's declared framerate and tickrate, marks each layer damaged, and
returns `success = true` — vacuously so when no display layer is active,
in which case the state is returned unchanged. -/
theorem handleSetWallpaper_all_monitors {A : Type} (path : String)
    (loadResult : String → Except String Wallpaper) (build : Wallpaper → A)
    (req : SetCurrentWallpaper) (client : ClientState A) (w : Wallpaper)
    (hmon : req.monitor = Option.none) (hload : loadResult path = .ok w) :
    (handleSetWallpaper (some path) loadResult build req client).2
      = ⟨req.name, true, Option.none⟩ ∧
    (handleSetWallpaper (some path) loadResult build req client).1.wallpapers
      = client.wallpapers.map (applyWallpaperTo build w) ∧
    (∀ l ∈ (handleSetWallpaper (some path) loadResult build req client).1.wallpapers,
      l.damaged = true ∧ l.wallpaper = build w ∧
        l.framesPerUpdate = setFramerate w.framerate ∧
        l.ticksPerUpdate = setTickrate w.tickrate) ∧
    (client.wallpapers = [] →
      (handleSetWallpaper (some path) loadResult build req client).1 = client) := by
  have hmain : handleSetWallpaper (some path) loadResult build req client =
      (⟨client.wallpapers.map (applyWallpaperTo build w)⟩, ⟨req.name, true, Option.none⟩) := by
    simp [handleSetWallpaper, hload, hmon]
  refine ⟨by rw [hmain], by rw [hmain], ?_, ?_⟩
  · rw [hmain]
    intro l hl
    obtain ⟨l0, _, rfl⟩ := List.mem_map.1 hl
    exact ⟨rfl, rfl, rfl, rfl⟩
  · intro hemp
    rw [hmain, hemp]
    cases client
    simp_all

/-- Witness for C10 at an empty display set: the reply still reports
success. -/
theorem handleSetWallpaper_all_monitors_witness :
    (handleSetWallpaper (A := Nat) (some "/wp/sunset")
        (fun _ => .ok ⟨"sunset", Background.none, [], 30, -1, "/wp/sunset"⟩)
        (fun _ => 0) ⟨"sunset", Option.none⟩ ⟨[]⟩).2 =
      ⟨"sunset", true, Option.none⟩ :=
  (handleSetWallpaper_all_monitors "/wp/sunset"
    (fun _ => .ok ⟨"sunset", Background.none, [], 30, -1, "/wp/sunset"⟩)
    (fun _ => 0) ⟨"sunset", Option.none⟩ ⟨[]⟩
    ⟨"sunset", Background.none, [], 30, -1, "/wp/sunset"⟩ rfl rfl).1
